import Mathlib

/-!
Verification of txsessionmgr (SessionManager.py).

A shallow embedding of `src/SessionManager.py`: a `Session` deduplicates
concurrent login attempts for clients sharing a device key, and a
`SessionManager` maps keys to sessions.

Concurrency model: Twisted `inlineCallbacks` coroutines run cooperatively;
each call executes atomically up to its first `yield`, and callbacks attached
to a deferred run, in the order they were added, when the deferred fires.
Accordingly `deferred_login` is split into its synchronous prefix
(`acquireStart`, everything up to `yield self._login_d`) and the
continuations that run when the login deferred fires (`runConts`).
The logout path never interleaves with session mutation in the claims
considered, so `deferred_logout` and `close_connection` are embedded as
atomic functions.

Python specifics mirrored here:
* a Python `set` is a duplicate-free `List` with guarded insert (`addC`);
* `if self._token:` truthiness is `Option.isSome` (tokens are opaque
  non-falsy objects such as strings);
* an exception raised by the login collaborator is a `Nat` code; the
  manager-level error type `Err` adds the `Exception('Client key cannot be
  empty')` raised by `get_connection`;
* the `_sessions` dict is an association list with unique keys
  (`lookupM` / `insertM` / `popM`).
-/

/-- A client as the module requires it: an identity (for set membership)
and a `key` attribute, possibly `None`. -/
structure Client where
  id : Nat
  key : Option Nat
deriving DecidableEq, Repr

/-- A Twisted deferred as far as `deferred_login` inspects it:
an identity and its `called` flag (set once it has fired). -/
structure Defr where
  id : Nat
  called : Bool
deriving DecidableEq, Repr

/-- The mutable state of `Session.__init__`: `_clients`, `_token`,
`_login_d`, `_login_error`. -/
structure Session where
  clients : List Client
  token : Option Nat
  login_d : Option Defr
  login_error : Option Nat
deriving DecidableEq, Repr

/-- Constructor `Session.__init__`: empty client set, no token, no pending login,
no recorded error. -/
def Session.init : Session :=
  { clients := [], token := none, login_d := none, login_error := none }

/-- Python `set.add`: insert if absent (keeps the list duplicate-free). -/
def addC (c : Client) (l : List Client) : List Client :=
  if c ∈ l then l else l ++ [c]

/-- Errors surfaced to callers. `invalidClient` is the
`Exception('Client key cannot be empty')` raised by `get_connection`;
`login e` wraps the exception `e` raised (or replayed) by the login path. -/
inductive Err where
  | invalidClient : Err
  | login (e : Nat) : Err
deriving DecidableEq, Repr

deriving instance DecidableEq for Except

/-- How a call to `deferred_login` (via `init_connection`) left off at its
first suspension point: finished synchronously with a result, suspended as
the initiator of login deferred `d`, or suspended waiting on the already
in-flight login deferred `d`. -/
inductive StartOutcome where
  | done (r : Except Err (Option Nat)) : StartOutcome
  | initiator (d : Nat) : StartOutcome
  | joiner (d : Nat) : StartOutcome
deriving DecidableEq, Repr

/-- The synchronous prefix of `Session.deferred_login` (lines 63-81 up to
the first `yield`): add the client, return the token if present, otherwise
start a fresh `_deferred_login` when `_login_d` is absent or already called,
else wait on the in-flight one. `fresh` is the identity of a newly created
deferred. Returns the updated session, how the call suspended, and whether
`_deferred_login` was invoked. -/
def acquireStart (c : Client) (fresh : Nat) (s : Session) :
    Session × StartOutcome × Bool :=
  let s1 := { s with clients := addC c s.clients }
  match s1.token with
  | some t => (s1, .done (.ok (some t)), false)
  | none =>
    match s1.login_d with
    | none =>
      ({ s1 with login_d := some ⟨fresh, false⟩ }, .initiator fresh, true)
    | some d =>
      if d.called then
        ({ s1 with login_d := some ⟨fresh, false⟩ }, .initiator fresh, true)
      else
        (s1, .joiner d.id, false)

/-- Result a joiner computes when resumed (lines 81-85): re-raise
`_login_error` when set, else return `self._token`. -/
def joinerResult (s : Session) : Except Err (Option Nat) :=
  match s.login_error with
  | some e => .error (.login e)
  | none => .ok s.token

/-- Run the continuations of the pending `deferred_login` calls, in the
order their callbacks were chained onto `_login_d`, once the login deferred
fires with result `r`. The initiator stores the token or records the error
(lines 71-75); a joiner re-raises `_login_error` or returns the current
token (lines 81-85); a call that finished synchronously keeps its result. -/
def runConts (r : Except Nat Nat) (s : Session) :
    List StartOutcome → Session × List (Except Err (Option Nat))
  | [] => (s, [])
  | o :: rest =>
    let step : Session × Except Err (Option Nat) :=
      match o with
      | .done x => (s, x)
      | .initiator _ =>
        match r with
        | .ok t => ({ s with token := some t }, .ok (some t))
        | .error e => ({ s with login_error := some e }, .error (.login e))
      | .joiner _ => (s, joinerResult s)
    let rec1 := runConts r step.1 rest
    (rec1.1, step.2 :: rec1.2)

/-- The login deferred `_login_d` fires with result `r`: the deferred's `called` flag is set,
then the chained continuations run. -/
def fireLogin (r : Except Nat Nat) (s : Session) (outs : List StartOutcome) :
    Session × List (Except Err (Option Nat)) :=
  runConts r
    { s with login_d := s.login_d.map (fun d => ⟨d.id, true⟩) } outs

/-- Method `Session.deferred_logout` (lines 87-103), embedded atomically.
`lr` is the outcome of the logout collaborator `_deferred_logout`; the
`try/except Exception: pass` discards it either way. Returns the updated
session and the number of collaborator invocations. -/
def deferred_logout (lr : Except Nat Unit) (c : Client) (s : Session) :
    Session × Nat :=
  let p : Session × Nat :=
    if s.clients.length ≤ 1 then
      let n : Nat :=
        match s.token with
        | some _ =>
          match lr with
          | .ok _ => 1
          | .error _ => 1
        | none => 0
      ({ s with token := none }, n)
    else (s, 0)
  if c ∈ p.1.clients then
    ({ p.1 with clients := p.1.clients.erase c }, p.2)
  else p

/-- The `_sessions` dict: an association list with unique keys. -/
def Manager := List (Nat × Session)
deriving instance DecidableEq, Repr for Manager

/-- Python `dict.get(key, None)`. -/
def lookupM (m : Manager) (k : Nat) : Option Session :=
  match m with
  | [] => none
  | (k1, s) :: rest => if k1 = k then some s else lookupM rest k

/-- Python `dict[key] = session`: replace the binding if present, else append. -/
def insertM (m : Manager) (k : Nat) (s : Session) : Manager :=
  match m with
  | [] => [(k, s)]
  | (k1, s1) :: rest =>
    if k1 = k then (k, s) :: rest else (k1, s1) :: insertM rest k s

/-- Python `dict.pop(key)`: drop the binding for `k`. -/
def popM (m : Manager) (k : Nat) : Manager :=
  match m with
  | [] => []
  | (k1, s1) :: rest => if k1 = k then rest else (k1, s1) :: popM rest k

/-- Method `SessionManager.get_connection` (lines 141-145): raise when the key is
`None`, else `self._sessions.get(key, None)`. -/
def get_connection (m : Manager) (key : Option Nat) :
    Except Err (Option Session) :=
  match key with
  | none => .error .invalidClient
  | some k => .ok (lookupM m k)

/-- Method `SessionManager.remove_connection` (lines 147-155): look the session up
(raising on a `None` key) and pop it when present. The returned `Nat` counts
invocations of the logout collaborator: the body contains none. -/
def remove_connection (key : Option Nat) (m : Manager) :
    Manager × Except Err Unit × Nat :=
  match get_connection m key with
  | .error e => (m, .error e, 0)
  | .ok none => (m, .ok (), 0)
  | .ok (some _) =>
    match key with
    | none => (m, .ok (), 0)
    | some k => (popM m k, .ok (), 0)

/-- The synchronous prefix of `SessionManager.init_connection`
(lines 157-183): modelled clients always have a `key` attribute, so the
`hasattr` check passes; `get_connection` raises on a `None` key; a session
holding a token is reused directly (attaching the client); otherwise the
(possibly fresh, registered) session's `deferred_login` runs up to its
first suspension point. An exception is the call's outcome (`.done`
with an error); the manager state is returned alongside. -/
def connectStart (c : Client) (fresh : Nat) (m : Manager) :
    Manager × StartOutcome × Bool :=
  match c.key with
  | none => (m, .done (.error .invalidClient), false)
  | some k =>
    match lookupM m k with
    | some s =>
      match s.token with
      | some t =>
        let s1 :=
          if c ∈ s.clients then s
          else { s with clients := addC c s.clients }
        (insertM m k s1, .done (.ok (some t)), false)
      | none =>
        let p := acquireStart c fresh s
        (insertM m k p.1, p.2.1, p.2.2)
    | none =>
      let p := acquireStart c fresh Session.init
      (insertM m k p.1, p.2.1, p.2.2)

/-- Method `SessionManager.close_connection` (lines 185-201): look up the session
for the client's key (raising on a `None` key), run `deferred_logout`, and
pop the key once the session has no clients left. Returns the manager, the
call's outcome, and the number of logout-collaborator invocations. -/
def close_connection (lr : Except Nat Unit) (c : Client) (m : Manager) :
    Manager × Except Err Unit × Nat :=
  match c.key with
  | none => (m, .error .invalidClient, 0)
  | some k =>
    match lookupM m k with
    | none => (m, .ok (), 0)
    | some s =>
      let p := deferred_logout lr c s
      if p.1.clients = [] then (popM m k, .ok (), p.2)
      else (insertM m k p.1, .ok (), p.2)

/-- A sequence of `init_connection` calls, each running up to its first
suspension point before the next begins (cooperative scheduling with no
intervening deferred firing). `fresh` numbers the login deferreds created.
Returns the manager, the per-call suspension outcomes in call order, and
the total number of `_deferred_login` invocations. -/
def connectAll : List Client → Nat → Manager →
    Manager × List StartOutcome × Nat
  | [], _, m => (m, [], 0)
  | c :: cs, fresh, m =>
    let p := connectStart c fresh m
    let q := connectAll cs (fresh + 1) p.1
    (q.1, p.2.1 :: q.2.1, (if p.2.2 then 1 else 0) + q.2.2)

/-- The login deferred of the session registered under `k` fires with
result `r`; the pending calls' continuations (`outs`, in call order) run
against it and the mutated session is the one the dict still holds. -/
def fireLoginAt (k : Nat) (r : Except Nat Nat) (outs : List StartOutcome)
    (m : Manager) : Manager × List (Except Err (Option Nat)) :=
  match lookupM m k with
  | none => (m, [])
  | some s =>
    let p := fireLogin r s outs
    (insertM m k p.1, p.2)

/-- The single outcome every concurrent acquirer of one login attempt is
expected to observe: the token on success, the raised error on failure. -/
def loginOutcome (r : Except Nat Nat) : Except Err (Option Nat) :=
  match r with
  | .ok t => .ok (some t)
  | .error e => .error (.login e)

/-- First scenario client, attached to key `0`. -/
def clientA : Client := ⟨0, some 0⟩

/-- Second scenario client, attached to key `0`. -/
def clientB : Client := ⟨1, some 0⟩

/-- Third scenario client, attached to key `0`. -/
def clientC : Client := ⟨2, some 0⟩

/-- Registry state after `clientA` alone connected under key `0` and its
login attempt failed with error `3`. -/
def failedOnce : Manager :=
  (fireLoginAt 0 (.error 3) (connectAll [clientA] 0 []).2.1
    (connectAll [clientA] 0 []).1).1

/-- Registry state after `clientA` and `clientB` connected under key `0`
and the shared login succeeded with token `7`. -/
def twoClientsConnected : Manager :=
  (fireLoginAt 0 (.ok 7) (connectAll [clientA, clientB] 0 []).2.1
    (connectAll [clientA, clientB] 0 []).1).1

/-- Registry state after `clientA` subsequently disconnected once. -/
def afterCloseA : Manager :=
  (close_connection (.ok ()) clientA twoClientsConnected).1

/-- Adding a client already in the set leaves it unchanged. -/
lemma addC_of_mem {c : Client} {l : List Client} (h : c ∈ l) : addC c l = l := by
  simp [addC, h]

/-- Popping key `k` does not disturb the binding of any other key. -/
lemma lookupM_popM_of_ne (m : Manager) (k k2 : Nat) (h : k2 ≠ k) :
    lookupM (popM m k) k2 = lookupM m k2 := by
  induction m with
  | nil => rfl
  | cons p rest ih =>
    obtain ⟨k1, s1⟩ := p
    by_cases h1 : k1 = k
    · subst h1
      have h2 : k1 ≠ k2 := fun hh => h (hh ▸ rfl)
      simp [popM, lookupM, h2]
    · simp only [popM, if_neg h1, lookupM]
      by_cases h2 : k1 = k2
      · simp [h2]
      · simp [h2, ih]


/-- C7: for every client whose key is `None`, `init_connection` fails with
the invalid-client error before any session lookup or creation, and the
registry mapping is returned unchanged, with no login invocation. -/
theorem connect_none_key_rejected (m : Manager) (fresh : Nat) (c : Client)
    (hk : c.key = none) :
    connectStart c fresh m =
      (m, .done (.error .invalidClient), false) := by
  simp [connectStart, hk]

/-- Witness for `connect_none_key_rejected` at a concrete client and a
nonempty registry. -/
theorem connect_none_key_rejected_witness :
    connectStart ⟨3, none⟩ 0 [(0, Session.init)] =
      ([(0, Session.init)], .done (.error .invalidClient), false) :=
  connect_none_key_rejected [(0, Session.init)] 0 ⟨3, none⟩ rfl

/-- C6: when the session registered under a client's key already holds a
token, `init_connection` returns that token directly, attaches the client
to the session's client set, and issues no call to the login collaborator. -/
theorem token_reuse (m : Manager) (k t fresh : Nat) (s : Session) (c : Client)
    (hk : c.key = some k) (hs : lookupM m k = some s) (ht : s.token = some t) :
    connectStart c fresh m =
      (insertM m k { s with clients := addC c s.clients },
       .done (.ok (some t)), false) := by
  simp only [connectStart, hk, hs, ht]
  by_cases hc : c ∈ s.clients
  · simp only [if_pos hc, addC_of_mem hc, Prod.mk.injEq, and_true, true_and]
    rw [← ht]
  · simp [hc]

/-- Witness for `token_reuse`: a fresh client joins an established
session and receives its token with no login call. -/
theorem token_reuse_witness :
    connectStart ⟨5, some 2⟩ 0 [(2, ⟨[⟨4, some 2⟩], some 9, none, none⟩)] =
      ([(2, ⟨[⟨4, some 2⟩, ⟨5, some 2⟩], some 9, none, none⟩)],
       .done (.ok (some 9)), false) := by
  have h := token_reuse [(2, ⟨[⟨4, some 2⟩], some 9, none, none⟩)] 2 9 0
    ⟨[⟨4, some 2⟩], some 9, none, none⟩ ⟨5, some 2⟩ rfl rfl rfl
  simpa [insertM, addC] using h

/-- C4 counterexample: a client whose key is `None` makes
`close_connection` raise the key-validation error instead of completing
without error, refuting the claim that disconnect never raises regardless
of the client's key. -/
theorem close_none_key_raises :
    close_connection (.ok ()) ⟨0, none⟩ [] =
      ([], .error .invalidClient, 0) := rfl

/-- C4 amended: for every client holding a non-`None` key,
`close_connection` completes without error, whatever the registry state
and whatever the logout collaborator does. -/
theorem close_some_key_never_raises (lr : Except Nat Unit) (c : Client)
    (m : Manager) (k : Nat) (hk : c.key = some k) :
    (close_connection lr c m).2.1 = .ok () := by
  simp only [close_connection, hk]
  cases h : lookupM m k with
  | none => rfl
  | some s =>
    simp only []
    split <;> rfl

/-- Witness for `close_some_key_never_raises` with a failing logout
collaborator and a registered last client. -/
theorem close_some_key_never_raises_witness :
    (close_connection (.error 4) ⟨1, some 0⟩
      [(0, ⟨[⟨1, some 0⟩], some 7, none, none⟩)]).2.1 = .ok () :=
  close_some_key_never_raises (.error 4) ⟨1, some 0⟩
    [(0, ⟨[⟨1, some 0⟩], some 7, none, none⟩)] 0 rfl

/-- C9: the logout branch of `deferred_logout` does not require the caller
to be a member of the client set: whenever the set has at most one member
and a token is held, any caller's `deferred_logout` invokes the logout
collaborator exactly once and clears the token, and the caller is removed
only if it was a member. -/
theorem logout_ignores_membership (lr : Except Nat Unit) (s : Session)
    (c : Client) (t : Nat) (hlen : s.clients.length ≤ 1)
    (ht : s.token = some t) :
    deferred_logout lr c s =
      ({ s with
           token := none,
           clients := if c ∈ s.clients then s.clients.erase c
                      else s.clients }, 1) := by
  simp only [deferred_logout, if_pos hlen, ht]
  cases lr <;> by_cases hc : c ∈ s.clients <;> simp [hc]

/-- Witness for `logout_ignores_membership`: the caller is not a member of
the singleton client set, yet logout fires and the token is cleared. -/
theorem logout_ignores_membership_witness :
    deferred_logout (.ok ()) ⟨2, some 0⟩ ⟨[⟨1, some 0⟩], some 5, none, none⟩ =
      (⟨[⟨1, some 0⟩], none, none, none⟩, 1) := by
  have h := logout_ignores_membership (.ok ()) ⟨[⟨1, some 0⟩], some 5, none, none⟩
    ⟨2, some 0⟩ 5 (by decide) rfl
  simpa using h

/-- C10: for every non-`None` key, `remove_connection` performs no logout
call, completes without error, leaves the binding of every other key
untouched, and is the identity on the mapping when the key is absent. -/
theorem remove_conn_no_logout_frame (m : Manager) (k : Nat) :
    (remove_connection (some k) m).2.2 = 0 ∧
    (remove_connection (some k) m).2.1 = .ok () ∧
    (∀ k2, k2 ≠ k →
      lookupM (remove_connection (some k) m).1 k2 = lookupM m k2) ∧
    (lookupM m k = none → (remove_connection (some k) m).1 = m) := by
  simp only [remove_connection, get_connection]
  cases h : lookupM m k with
  | none => exact ⟨rfl, rfl, fun k2 _ => rfl, fun _ => rfl⟩
  | some s =>
    exact ⟨rfl, rfl, fun k2 h2 => lookupM_popM_of_ne m k k2 h2,
      fun hh => absurd hh (by simp)⟩

/-- Witness for `remove_conn_no_logout_frame`: removing key `1` leaves the
binding of key `2` alone, and removing an absent key changes nothing. -/
theorem remove_conn_no_logout_frame_witness :
    lookupM (remove_connection (some 1)
        [(1, Session.init), (2, Session.init)]).1 2 =
      lookupM [(1, Session.init), (2, Session.init)] 2 ∧
    (remove_connection (some 1) [(5, Session.init)]).1 =
      [(5, Session.init)] :=
  ⟨(remove_conn_no_logout_frame [(1, Session.init), (2, Session.init)]
      1).2.2.1 2 (by decide),
   (remove_conn_no_logout_frame [(5, Session.init)] 1).2.2.2 rfl⟩

/-- C8: when the last attached client disconnects and the logout
collaborator raises, `deferred_logout` still clears the token and empties
the client set, and `close_connection` completes without error, counts one
logout attempt, and evicts the session from the registry. -/
theorem logout_failure_absorbed (m : Manager) (k t e : Nat) (s : Session)
    (c : Client) (hk : c.key = some k) (hs : lookupM m k = some s)
    (hc : s.clients = [c]) (ht : s.token = some t) :
    deferred_logout (.error e) c s =
      ({ s with token := none, clients := [] }, 1) ∧
    close_connection (.error e) c m = (popM m k, .ok (), 1) := by
  have h1 : deferred_logout (.error e) c s =
      ({ s with token := none, clients := [] }, 1) := by
    simp [deferred_logout, hc, ht]
  exact ⟨h1, by simp [close_connection, hk, hs, h1]⟩

/-- Witness for `logout_failure_absorbed`: the sole client disconnects, the
collaborator raises error `9`, yet the call succeeds and the key is gone. -/
theorem logout_failure_absorbed_witness :
    close_connection (.error 9) ⟨1, some 0⟩
        [(0, ⟨[⟨1, some 0⟩], some 7, none, none⟩)] = ([], .ok (), 1) := by
  have h := (logout_failure_absorbed
    [(0, ⟨[⟨1, some 0⟩], some 7, none, none⟩)] 0 7 9
    ⟨[⟨1, some 0⟩], some 7, none, none⟩ ⟨1, some 0⟩ rfl rfl rfl rfl).2
  simpa [popM] using h

/-- C2 failing input, evaluated: starting from `failedOnce` (login failed
with error `3`), `clientB` begins a fresh login attempt and `clientC`
joins it while in flight. The stored `_login_error` is still `3` after the
fresh attempt begins, and when the fresh login succeeds with token `7` the
initiator gets the token but the waiting `clientC` is given the stale
error `3` instead of the fresh attempt's outcome. -/
theorem stale_error_not_cleared :
    (lookupM (connectAll [clientB, clientC] 1 failedOnce).1 0).map
        Session.login_error = some (some 3) ∧
    (fireLoginAt 0 (.ok 7) (connectAll [clientB, clientC] 1 failedOnce).2.1
        (connectAll [clientB, clientC] 1 failedOnce).1).2 =
      [.ok (some 7), .error (.login 3)] := by decide

/-- C3 failing input, evaluated: with `clientA` and `clientB` connected
under key `0` and token `7`, a first `close_connection` for `clientA`
detaches it; the second `close_connection` for the same `clientA` is not a
no-op: it invokes the logout collaborator once and clears the session's
token even though `clientB` is still attached. -/
theorem second_close_not_noop :
    (lookupM afterCloseA 0).map Session.token = some (some 7) ∧
    (lookupM afterCloseA 0).map Session.clients = some [clientB] ∧
    (close_connection (.ok ()) clientA afterCloseA).2.2 = 1 ∧
    (lookupM (close_connection (.ok ()) clientA afterCloseA).1 0).map
        Session.token = some none := by decide

/-- First `init_connection` on an empty registry: the session is created,
registered, and its login started (one collaborator invocation). -/
lemma connectStart_first (c : Client) (k fresh : Nat) (hk : c.key = some k) :
    connectStart c fresh [] =
      ([(k, { clients := [c], token := none, login_d := some ⟨fresh, false⟩,
              login_error := none })], .initiator fresh, true) := by
  simp [connectStart, hk, lookupM, acquireStart, Session.init, addC, insertM]

/-- A further `init_connection` while a login is in flight: the caller is
attached and waits on the same deferred, with no new login invocation. -/
lemma connectStart_joiner (c : Client) (k fresh i : Nat) (s : Session)
    (hk : c.key = some k) (ht : s.token = none)
    (hd : s.login_d = some ⟨i, false⟩) :
    connectStart c fresh [(k, s)] =
      ([(k, { s with clients := addC c s.clients })], .joiner i, false) := by
  simp [connectStart, hk, lookupM, ht, acquireStart, hd, insertM]

/-- Any sequence of `init_connection` calls for key `k` made while a login
deferred `i` is in flight produces only joiners and no login invocation,
and leaves the token, deferred and recorded error untouched. -/
lemma connectAll_joiners (k i : Nat) :
    ∀ (cs : List Client) (fresh : Nat) (s : Session),
    s.token = none → s.login_d = some ⟨i, false⟩ → s.login_error = none →
    (∀ c ∈ cs, c.key = some k) →
    ∃ s2, connectAll cs fresh [(k, s)] =
      ([(k, s2)], cs.map (fun _ => StartOutcome.joiner i), 0) ∧
      s2.token = none ∧ s2.login_d = some ⟨i, false⟩ ∧
      s2.login_error = none := by
  intro cs
  induction cs with
  | nil =>
    intro fresh s ht hd he hk
    exact ⟨s, rfl, ht, hd, he⟩
  | cons c rest ih =>
    intro fresh s ht hd he hk
    have hck : c.key = some k := hk c (List.mem_cons_self c rest)
    have hstep := connectStart_joiner c k fresh i s hck ht hd
    obtain ⟨s2, heq, h1, h2, h3⟩ :=
      ih (fresh + 1) { s with clients := addC c s.clients } ht hd he
        (fun c2 hm => hk c2 (List.mem_cons_of_mem c hm))
    exact ⟨s2, by simp [connectAll, hstep, heq], h1, h2, h3⟩

/-- Continuations of a list of joiners all read the same settled state and
leave it unchanged. -/
lemma runConts_all_joiners (r : Except Nat Nat) (s : Session) :
    ∀ (l : List StartOutcome), (∀ o ∈ l, ∃ i, o = StartOutcome.joiner i) →
    runConts r s l = (s, l.map (fun _ => joinerResult s)) := by
  intro l
  induction l with
  | nil => intro _; rfl
  | cons o rest ih =>
    intro h
    obtain ⟨i, hi⟩ := h o (List.mem_cons_self o rest)
    subst hi
    simp [runConts, ih (fun o2 hm => h o2 (List.mem_cons_of_mem _ hm))]

/-- When the login deferred fires, the initiator's continuation runs first
and the joiners follow: with no previously recorded error, every pending
call observes the single outcome of this login attempt. -/
lemma fireLogin_init_joiners (r : Except Nat Nat) (s : Session) (i : Nat)
    (l : List StartOutcome) (he : s.login_error = none)
    (hl : ∀ o ∈ l, ∃ j, o = StartOutcome.joiner j) :
    (fireLogin r s (StartOutcome.initiator i :: l)).2 =
      loginOutcome r :: l.map (fun _ => loginOutcome r) := by
  cases r with
  | ok t =>
    have hrun := runConts_all_joiners (Except.ok t)
      { s with login_d := s.login_d.map (fun d => ⟨d.id, true⟩),
               token := some t } l hl
    simp only [he] at hrun
    simp [fireLogin, runConts, he, hrun, joinerResult, loginOutcome]
  | error e =>
    have hrun := runConts_all_joiners (Except.error e)
      { s with login_d := s.login_d.map (fun d => ⟨d.id, true⟩),
               login_error := some e } l hl
    simp [fireLogin, runConts, hrun, joinerResult, loginOutcome]

/-- C1: single-flight login. For any nonempty batch of `init_connection`
calls sharing key `k`, all made while no session exists and before the
login settles, the login collaborator is invoked exactly once, and when the
shared login deferred fires every caller resolves to that one outcome: the
same token on success, the same error on failure. -/
theorem single_flight (k : Nat) (c0 : Client) (cs : List Client)
    (r : Except Nat Nat) (hk : ∀ c ∈ (c0 :: cs), c.key = some k) :
    (connectAll (c0 :: cs) 0 []).2.2 = 1 ∧
    ∀ res ∈ (fireLoginAt k r (connectAll (c0 :: cs) 0 []).2.1
        (connectAll (c0 :: cs) 0 []).1).2, res = loginOutcome r := by
  have hc0 : c0.key = some k := hk c0 (List.mem_cons_self c0 cs)
  have htail : ∀ c ∈ cs, c.key = some k :=
    fun c hm => hk c (List.mem_cons_of_mem c0 hm)
  obtain ⟨s2, heq, ht, hd, he⟩ := connectAll_joiners k 0 cs 1
    { clients := [c0], token := none, login_d := some ⟨0, false⟩,
      login_error := none } rfl rfl rfl htail
  have hall : connectAll (c0 :: cs) 0 [] =
      ([(k, s2)],
       StartOutcome.initiator 0 :: cs.map (fun _ => StartOutcome.joiner 0),
       1) := by
    simp [connectAll, connectStart_first c0 k 0 hc0, heq]
  rw [hall]
  refine ⟨rfl, ?_⟩
  intro res hres
  have hfire := fireLogin_init_joiners r s2 0
    (cs.map (fun _ => StartOutcome.joiner 0)) he
    (by
      intro o hm
      simp only [List.mem_map] at hm
      obtain ⟨a, _, h2⟩ := hm
      exact ⟨0, h2.symm⟩)
  have hlk : lookupM [(k, s2)] k = some s2 := by simp [lookupM]
  have hfa : (fireLoginAt k r
      (StartOutcome.initiator 0 :: cs.map (fun _ => StartOutcome.joiner 0))
      [(k, s2)]).2 =
      (fireLogin r s2 (StartOutcome.initiator 0 ::
        cs.map (fun _ => StartOutcome.joiner 0))).2 := by
    simp [fireLoginAt, hlk]
  rw [hfa, hfire] at hres
  simp only [List.mem_cons, List.mem_map] at hres
  rcases hres with h | ⟨a, _, h⟩
  · exact h
  · exact h.symm

/-- Witness for `single_flight`: three concurrent connects for key `5`,
login succeeding with token `7`. -/
theorem single_flight_witness :
    (connectAll [⟨0, some 5⟩, ⟨1, some 5⟩, ⟨2, some 5⟩] 0 []).2.2 = 1 ∧
    ∀ res ∈ (fireLoginAt 5 (.ok 7)
        (connectAll [⟨0, some 5⟩, ⟨1, some 5⟩, ⟨2, some 5⟩] 0 []).2.1
        (connectAll [⟨0, some 5⟩, ⟨1, some 5⟩, ⟨2, some 5⟩] 0 []).1).2,
      res = loginOutcome (.ok 7) :=
  single_flight 5 ⟨0, some 5⟩ [⟨1, some 5⟩, ⟨2, some 5⟩] (.ok 7) (by decide)

/-- C5: reference counting. Distinct clients `A` and `B` connect on the
same key and share a successful login; `A` disconnecting triggers no
logout and leaves the session registered, and `B` disconnecting afterwards
triggers exactly one logout and removes the key from the registry. -/
theorem refcount_last_closes (k t : Nat) (A B : Client)
    (lr1 lr2 : Except Nat Unit) (hAB : A ≠ B)
    (hA : A.key = some k) (hB : B.key = some k) :
    (close_connection lr1 A (fireLoginAt k (.ok t)
        (connectAll [A, B] 0 []).2.1 (connectAll [A, B] 0 []).1).1).2.2 = 0 ∧
    (lookupM (close_connection lr1 A (fireLoginAt k (.ok t)
        (connectAll [A, B] 0 []).2.1
        (connectAll [A, B] 0 []).1).1).1 k).isSome = true ∧
    (close_connection lr2 B (close_connection lr1 A (fireLoginAt k (.ok t)
        (connectAll [A, B] 0 []).2.1
        (connectAll [A, B] 0 []).1).1).1).2.2 = 1 ∧
    lookupM (close_connection lr2 B (close_connection lr1 A (fireLoginAt k
        (.ok t) (connectAll [A, B] 0 []).2.1
        (connectAll [A, B] 0 []).1).1).1).1 k = none := by
  have haddB : addC B [A] = [A, B] := by simp [addC, Ne.symm hAB]
  have h1 := connectStart_first A k 0 hA
  have h2 := connectStart_joiner B k 1 0
    ⟨[A], none, some ⟨0, false⟩, none⟩ hB rfl rfl
  have h0 : connectAll [A, B] 0 [] =
      ([(k, ⟨[A, B], none, some ⟨0, false⟩, none⟩)],
       [StartOutcome.initiator 0, StartOutcome.joiner 0], 1) := by
    simp [connectAll, h1, h2, haddB]
  have hm1 : fireLoginAt k (Except.ok t)
      [StartOutcome.initiator 0, StartOutcome.joiner 0]
      [(k, ⟨[A, B], none, some ⟨0, false⟩, none⟩)] =
      ([(k, ⟨[A, B], some t, some ⟨0, true⟩, none⟩)],
       [Except.ok (some t), Except.ok (some t)]) := by
    simp [fireLoginAt, lookupM, fireLogin, runConts, joinerResult, insertM]
  have hc1 : close_connection lr1 A
      [(k, ⟨[A, B], some t, some ⟨0, true⟩, none⟩)] =
      ([(k, ⟨[B], some t, some ⟨0, true⟩, none⟩)], Except.ok (), 0) := by
    simp [close_connection, hA, lookupM, deferred_logout, insertM,
      Ne.symm hAB]
  have hc2 : close_connection lr2 B
      [(k, ⟨[B], some t, some ⟨0, true⟩, none⟩)] =
      ([], Except.ok (), 1) := by
    cases lr2 <;>
      simp [close_connection, hB, lookupM, deferred_logout, popM,
        Ne.symm hAB]
  simp [h0, hm1, hc1, hc2, lookupM]

/-- Witness for `refcount_last_closes` at concrete distinct clients, one
logout collaborator succeeding and one failing. -/
theorem refcount_last_closes_witness :
    (close_connection (.ok ()) ⟨0, some 1⟩ (fireLoginAt 1 (.ok 7)
        (connectAll [⟨0, some 1⟩, ⟨1, some 1⟩] 0 []).2.1
        (connectAll [⟨0, some 1⟩, ⟨1, some 1⟩] 0 []).1).1).2.2 = 0 ∧
    (lookupM (close_connection (.ok ()) ⟨0, some 1⟩ (fireLoginAt 1 (.ok 7)
        (connectAll [⟨0, some 1⟩, ⟨1, some 1⟩] 0 []).2.1
        (connectAll [⟨0, some 1⟩, ⟨1, some 1⟩] 0 []).1).1).1 1).isSome
      = true ∧
    (close_connection (.error 9) ⟨1, some 1⟩ (close_connection (.ok ())
        ⟨0, some 1⟩ (fireLoginAt 1 (.ok 7)
        (connectAll [⟨0, some 1⟩, ⟨1, some 1⟩] 0 []).2.1
        (connectAll [⟨0, some 1⟩, ⟨1, some 1⟩] 0 []).1).1).1).2.2 = 1 ∧
    lookupM (close_connection (.error 9) ⟨1, some 1⟩ (close_connection
        (.ok ()) ⟨0, some 1⟩ (fireLoginAt 1 (.ok 7)
        (connectAll [⟨0, some 1⟩, ⟨1, some 1⟩] 0 []).2.1
        (connectAll [⟨0, some 1⟩, ⟨1, some 1⟩] 0 []).1).1).1).1 1 = none :=
  refcount_last_closes 1 7 ⟨0, some 1⟩ ⟨1, some 1⟩ (.ok ()) (.error 9)
    (by decide) rfl rfl
